import Mathlib

/-! Formal model of kernel/bpf/cgroup.c (cgroup-attached BPF programs).

The embedding keeps the source structure: a cgroup tree whose nodes carry,
per attach type, the single pinned program pointer `prog[type]`, the
published effective pointer `effective[type]`, the `disallow_override[type]`
bool, and the fields read by the (in this tree, unreferenced) multi-program
helpers: the `progs[type]` list and the `flags[type]` bits.  NULL pointers
become `none`; pointer arrays indexed by `enum bpf_attach_type` become
functions out of `Fin 4` (MAX_BPF_ATTACH_TYPE).  Error returns are modelled
by the C return codes (`-EPERM`, `-ENOENT`, `0`); the state-threading
functions return the (possibly unchanged) tree and global counter so that
failure paths provably leave state intact, exactly as the C early returns
do. -/

/-- A BPF program handle: a non-null `struct bpf_prog` pointer. -/
abbrev Prog := Nat

/-- Index into the per-type arrays: `enum bpf_attach_type`. -/
abbrev AttachType := Fin 4

/-- The two flag bits read from `cgrp->bpf.flags[type]`:
`BPF_F_ALLOW_MULTI` and `BPF_F_ALLOW_OVERRIDE`. -/
structure BpfFlags where
  allow_multi : Bool
  allow_override : Bool
deriving DecidableEq

/-- Per-attach-type slice of `struct cgroup_bpf`: the pinned program
`prog[type]`, the published `effective[type]` pointer (a single program
pointer, as the update/inherit/run paths in this file use it), the
`disallow_override[type]` bool, and the `progs[type]` list (entries with a
NULL `pl->prog` are `none`) and `flags[type]` word read by the helper
functions. -/
structure TypeState where
  prog : Option Prog
  effective : Option Prog
  disallow_override : Bool
  progs : List (Option Prog)
  flags : BpfFlags
deriving DecidableEq

/-- The whole `struct cgroup_bpf`: one `TypeState` per attach type. -/
abbrev CgroupBpf := AttachType → TypeState

/-- The cgroup hierarchy: each cgroup holds its bpf state and its list of
child cgroups (`css_for_each_descendant_pre` order is the natural pre-order
over this structure). -/
inductive CgroupTree where
  | mk : CgroupBpf → List CgroupTree → CgroupTree

def CgroupTree.bpf : CgroupTree → CgroupBpf
  | .mk b _ => b

def CgroupTree.children : CgroupTree → List CgroupTree
  | .mk _ cs => cs

/-- Model of `prog_list_length`: count non-NULL entries of a `progs[type]` list. -/
def prog_list_length : List (Option Prog) → Nat
  | [] => 0
  | none :: rest => prog_list_length rest
  | some _ :: rest => prog_list_length rest + 1

/-- Model of `hierarchy_allows_attach`: walk the ancestors of the attach target from
the parent toward the root (the list holds each ancestor's per-type state,
parent first).  `new_flags` is a parameter of the C function that its body
never reads. -/
def hierarchy_allows_attach (ancestors : List TypeState) (new_flags : BpfFlags) : Bool :=
  match ancestors with
  | [] => true
  | p :: rest =>
    if p.flags.allow_multi then true
    else if prog_list_length p.progs = 1 then p.flags.allow_override
    else hierarchy_allows_attach rest new_flags

/-- The non-NULL programs of a `progs[type]` list, in list order (the fill
loop of `compute_effective_progs` skips NULL `pl->prog` entries). -/
def progsNonNull : List (Option Prog) → List Prog
  | [] => []
  | none :: rest => progsNonNull rest
  | some q :: rest => q :: progsNonNull rest

/-- Fill loop of `compute_effective_progs`: the chain is the node-to-root
list of per-type states; `cnt` is the number of programs already emitted.
A node contributes its programs when nothing has been emitted yet or when
its own `BPF_F_ALLOW_MULTI` bit is set. -/
def compute_effective_fill : List TypeState → Nat → List Prog
  | [], _ => []
  | p :: rest, cnt =>
    if cnt = 0 || p.flags.allow_multi then
      progsNonNull p.progs ++
        compute_effective_fill rest (cnt + prog_list_length p.progs)
    else
      compute_effective_fill rest cnt

/-- Model of `compute_effective_progs` on the node-to-root chain of per-type states
(node itself first).  Allocation is modelled as always succeeding; the
count pass only sizes the array the fill pass produces. -/
def compute_effective_progs (chain : List TypeState) : List Prog :=
  compute_effective_fill chain 0

/-- Error code `EPERM` (the C function returns `-EPERM`). -/
def EPERM : Int := 1

/-- Error code `ENOENT` (the C function returns `-ENOENT`). -/
def ENOENT : Int := 2

/-- Model of `cgroup_bpf_inherit`: a freshly created cgroup copies, for every attach
type, the parent's published `effective[type]` pointer and its
`disallow_override[type]` value. -/
def cgroup_bpf_inherit (parentBpf childBpf : CgroupBpf) : CgroupBpf :=
  fun ty =>
    { childBpf ty with
      effective := (parentBpf ty).effective
      disallow_override := (parentBpf ty).disallow_override }

/-- Write `cgrp->bpf.effective[type]` and `cgrp->bpf.disallow_override[type]`
in one per-type state map. -/
def setEffDis (ty : AttachType) (eff : Option Prog) (dis : Bool) (b : CgroupBpf) : CgroupBpf :=
  Function.update b ty
    { b ty with effective := eff, disallow_override := dis }

/-- Write `cgrp->bpf.prog[type]` at the root of a subtree. -/
def setProg (ty : AttachType) (pr : Option Prog) : CgroupTree → CgroupTree
  | .mk b cs => .mk (Function.update b ty { b ty with prog := pr }) cs

mutual

/-- The `css_for_each_descendant_pre` loop of `__cgroup_bpf_update`: visit
the subtree root unconditionally (it is `cgrp` itself), then every
descendant, skipping the entire subtree of any descendant that has its own
program pinned for this type; each visited cgroup gets the new `effective`
pointer and `disallow_override` value. -/
def propagate (ty : AttachType) (eff : Option Prog) (dis : Bool) : CgroupTree → CgroupTree
  | .mk b cs => .mk (setEffDis ty eff dis b) (propagateChildren ty eff dis cs)

/-- Child half of the descendant walk: a child with its own program pinned
is skipped whole (`css_rightmost_descendant`), otherwise it is visited and
its subtree walked. -/
def propagateChildren (ty : AttachType) (eff : Option Prog) (dis : Bool) :
    List CgroupTree → List CgroupTree
  | [] => []
  | c :: cs =>
    (if ((c.bpf ty).prog).isSome then c else propagate ty eff dis c) ::
      propagateChildren ty eff dis cs

end

/-- What the C locals `overridable`/`effective` hold after the `if (prog)`
block: on attach they become the requested mode and the new program, on
detach they keep the parent-derived values. -/
def parentOverridable (parent : Option CgroupBpf) (ty : AttachType) : Bool :=
  match parent with
  | none => true
  | some pb => !(pb ty).disallow_override

def parentEffective (parent : Option CgroupBpf) (ty : AttachType) : Option Prog :=
  match parent with
  | none => none
  | some pb => (pb ty).effective

def updOverridable (parent : Option CgroupBpf) (pr : Option Prog) (ty : AttachType)
    (new_overridable : Bool) : Bool :=
  if pr.isSome then new_overridable else parentOverridable parent ty

def updEffective (parent : Option CgroupBpf) (pr : Option Prog) (ty : AttachType) : Option Prog :=
  if pr.isSome then pr else parentEffective parent ty

/-- Result of `__cgroup_bpf_update`: the C return value, the (sub)tree
rooted at the updated cgroup, and the global `cgroup_bpf_enabled_key`
count. -/
structure UpdateResult where
  ret : Int
  tree : CgroupTree
  cnt : Int

/-- Model of `__cgroup_bpf_update` on the subtree rooted at the updated cgroup.
`parent` is the parent cgroup's bpf state (`none` for the root), `pr` the
new program (`none` detaches), `cnt` the global enabled count.  The three
`-EPERM` checks and the `-ENOENT` check happen before any store, so the
failure results carry the input tree and count unchanged, exactly as the C
early returns do; on success `prog[type]` is stored at the root and the
descendant walk republishes `effective`/`disallow_override`, then the
enabled count is incremented for an attached program and decremented for a
released old program. -/
def __cgroup_bpf_update (t : CgroupTree) (parent : Option CgroupBpf) (pr : Option Prog)
    (ty : AttachType) (new_overridable : Bool) (cnt : Int) : UpdateResult :=
  if pr.isSome && (parentEffective parent ty).isSome && !(parentOverridable parent ty) then
    { ret := -EPERM, tree := t, cnt := cnt }
  else if pr.isSome && (parentEffective parent ty).isSome &&
      (parentOverridable parent ty != new_overridable) then
    { ret := -EPERM, tree := t, cnt := cnt }
  else if pr.isSome && ((t.bpf ty).prog).isSome &&
      ((t.bpf ty).disallow_override == new_overridable) then
    { ret := -EPERM, tree := t, cnt := cnt }
  else if !pr.isSome && !((t.bpf ty).prog).isSome then
    { ret := -ENOENT, tree := t, cnt := cnt }
  else
    { ret := 0
      tree := propagate ty (updEffective parent pr ty)
        (!updOverridable parent pr ty new_overridable) (setProg ty pr t)
      cnt :=
        if ((t.bpf ty).prog).isSome then
          (if pr.isSome then cnt + 1 else cnt) - 1
        else
          (if pr.isSome then cnt + 1 else cnt) }

/-- Address family constants `AF_INET` and `AF_INET6`. -/
def AF_INET : Nat := 2

def AF_INET6 : Nat := 10

/-- The part of `struct sock` this file reads: `sk_fullsock(sk)`, the
address family `sk->sk_family`, and the cgroup the socket belongs to
(`sock_cgroup_ptr(&sk->sk_cgrp_data)->bpf`). -/
structure Sock where
  fullsock : Bool
  family : Nat
  cgrp : CgroupBpf

/-- An `sk_buff`, kept abstract: the programs receive it whole.  The
`__skb_push`/`__skb_pull` offset adjustment and the `skb->sk` save/restore
around the program call are byte-layout bookkeeping that is undone before
return and is folded into the program-invocation parameter. -/
abbrev SkBuff := Nat

/-- Model of `__cgroup_bpf_run_filter_sk`: load the published effective pointer for
the socket's cgroup; absent means accept (0); otherwise the verdict is 0
when the program returns 1 and `-EPERM` otherwise.  `runProg` is the
external `BPF_PROG_RUN`. -/
def __cgroup_bpf_run_filter_sk (runProg : Prog → Sock → Int) (sk : Sock)
    (ty : AttachType) : Int :=
  match (sk.cgrp ty).effective with
  | none => 0
  | some p => if runProg p sk = 1 then 0 else -EPERM

/-- Model of `__cgroup_bpf_run_filter_skb`: a NULL socket, a non-full socket, or a
family other than `AF_INET`/`AF_INET6` short-circuits to 0 before the
effective pointer is even loaded; otherwise as the sk variant, with the
program run on the skb (`bpf_prog_run_save_cb`) while the socket is
installed on it. -/
def __cgroup_bpf_run_filter_skb (runProg : Prog → SkBuff → Sock → Int)
    (sk : Option Sock) (skb : SkBuff) (ty : AttachType) : Int :=
  match sk with
  | none => 0
  | some s =>
    if !s.fullsock then 0
    else if s.family != AF_INET && s.family != AF_INET6 then 0
    else
      match (s.cgrp ty).effective with
      | none => 0
      | some p => if runProg p skb s = 1 then 0 else -EPERM

/-- Modelled from the spec (claim C6's chain semantics, for comparison with
the run path): execute a chain in order, return reject (`-EPERM`) at the
first program whose verdict is not accept, accept (0) once all programs
accept, accept on an empty chain. -/
def chainVerdict (accept1 : Prog → Bool) : List Prog → Int
  | [] => 0
  | p :: rest => if accept1 p then chainVerdict accept1 rest else -EPERM

/-- Subtree lookup by child-index path. -/
def getNode : CgroupTree → List Nat → Option CgroupTree
  | t, [] => some t
  | t, i :: p =>
    match t.children.get? i with
    | none => none
    | some c => getNode c p

/-- The positions the descendant walk of `__cgroup_bpf_update` visits
without skipping: the updated cgroup itself, and every descendant all of
whose ancestors on the path down from the updated cgroup (itself included)
have no own program pinned for the type. -/
def reached (ty : AttachType) : CgroupTree → List Nat → Bool
  | _, [] => true
  | t, i :: p =>
    match t.children.get? i with
    | none => false
    | some c => ((c.bpf ty).prog).isNone && reached ty c p

def progAt (ty : AttachType) (t : CgroupTree) (p : List Nat) : Option (Option Prog) :=
  (getNode t p).map fun n => (n.bpf ty).prog

def effAt (ty : AttachType) (t : CgroupTree) (p : List Nat) : Option (Option Prog) :=
  (getNode t p).map fun n => (n.bpf ty).effective

def disAt (ty : AttachType) (t : CgroupTree) (p : List Nat) : Option Bool :=
  (getNode t p).map fun n => (n.bpf ty).disallow_override

/-- A cgroup bpf state with nothing attached, nothing published and no
flags set. -/
def emptyBpf : CgroupBpf :=
  fun _ =>
    { prog := none
      effective := none
      disallow_override := false
      progs := []
      flags := { allow_multi := false, allow_override := false } }

/-- The override-policy value claim C10 predicts the walk writes: on attach
the negation of the requested overridability, on detach the parent's
stored `disallow_override`, or false (overridable) for a parentless
root. -/
def expectedDisallow (parent : Option CgroupBpf) (pr : Option Prog) (nov : Bool)
    (ty : AttachType) : Bool :=
  if pr.isSome then !nov
  else
    match parent with
    | none => false
    | some pb => (pb ty).disallow_override

/-- The first update of claim C1's scenario: attach `p1` (overridable — the
update entry point has no multi mode) at the root of a fresh two-node
tree. -/
def scenarioRoot (ty : AttachType) (p1 : Prog) (cnt0 : Int) : UpdateResult :=
  __cgroup_bpf_update (CgroupTree.mk emptyBpf [CgroupTree.mk emptyBpf []])
    none (some p1) ty true cnt0

/-- The second update of claim C1's scenario: attach `p2` (overridable) at
the child the first update produced, with the updated root as parent. -/
def scenarioChild (ty : AttachType) (p1 p2 : Prog) (cnt0 : Int) : UpdateResult :=
  __cgroup_bpf_update (CgroupTree.mk (setEffDis ty (some p1) false emptyBpf) [])
    (some (scenarioRoot ty p1 cnt0).tree.bpf) (some p2) ty true
    (scenarioRoot ty p1 cnt0).cnt

/-! Structural lemmas about the descendant walk. -/

theorem propagateChildren_eq_map (ty : AttachType) (eff : Option Prog) (dis : Bool)
    (cs : List CgroupTree) :
    propagateChildren ty eff dis cs =
      cs.map fun c => if ((c.bpf ty).prog).isSome then c else propagate ty eff dis c := by
  induction cs with
  | nil => rfl
  | cons c cs ih => simp [propagateChildren, ih]

theorem bpf_propagate (ty : AttachType) (eff : Option Prog) (dis : Bool) (t : CgroupTree) :
    (propagate ty eff dis t).bpf = setEffDis ty eff dis t.bpf := by
  cases t
  rfl

theorem children_propagate (ty : AttachType) (eff : Option Prog) (dis : Bool) (t : CgroupTree) :
    (propagate ty eff dis t).children = propagateChildren ty eff dis t.children := by
  cases t
  rfl

theorem setEffDis_same (ty : AttachType) (eff : Option Prog) (dis : Bool) (b : CgroupBpf) :
    (setEffDis ty eff dis b) ty =
      { b ty with effective := eff, disallow_override := dis } := by
  simp [setEffDis, Function.update_same]

theorem bpf_setProg (ty : AttachType) (pr : Option Prog) (t : CgroupTree) :
    (setProg ty pr t).bpf = Function.update t.bpf ty { t.bpf ty with prog := pr } := by
  cases t
  rfl

theorem getNode_setProg_cons (ty : AttachType) (pr : Option Prog) (t : CgroupTree)
    (i : Nat) (p : List Nat) :
    getNode (setProg ty pr t) (i :: p) = getNode t (i :: p) := by
  cases t
  rfl

theorem reached_setProg (ty : AttachType) (pr : Option Prog) (t : CgroupTree) (p : List Nat) :
    reached ty (setProg ty pr t) p = reached ty t p := by
  cases t <;> cases p <;> rfl

/-- Along a fully un-skipped path, the walk maps the subtree at the path
through `propagate` itself. -/
theorem getNode_propagate_of_reached (ty : AttachType) (eff : Option Prog) (dis : Bool) :
    ∀ (p : List Nat) (t : CgroupTree), reached ty t p = true →
      ∃ n, getNode t p = some n ∧
        getNode (propagate ty eff dis t) p = some (propagate ty eff dis n) := by
  intro p
  induction p with
  | nil =>
    intro t _
    exact ⟨t, rfl, rfl⟩
  | cons i p ih =>
    intro t hr
    cases t with
    | mk b cs =>
      simp only [reached, CgroupTree.children] at hr
      cases hcs : cs.get? i with
      | none => rw [hcs] at hr; simp at hr
      | some c =>
        rw [hcs] at hr
        simp only [Bool.and_eq_true] at hr
        obtain ⟨hnone, hrest⟩ := hr
        have hns : ((c.bpf ty).prog).isSome = false := by
          simp [Option.isNone_iff_eq_none] at hnone
          simp [hnone]
        obtain ⟨n, hn, hn2⟩ := ih c hrest
        refine ⟨n, ?_, ?_⟩
        · simp only [getNode, CgroupTree.children, hcs]
          exact hn
        · simp only [propagate, getNode, CgroupTree.children, propagateChildren_eq_map,
            List.get?_map, hcs, Option.map_some', hns, Bool.false_eq_true, if_false]
          exact hn2

/-- A path into a descendant with its own pinned program is left untouched
by the walk (the whole subtree of such a descendant is skipped). -/
theorem getNode_propagate_of_ownprog (ty : AttachType) (eff : Option Prog) (dis : Bool) :
    ∀ (p : List Nat) (t n : CgroupTree), p ≠ [] → getNode t p = some n →
      ((n.bpf ty).prog).isSome = true →
      getNode (propagate ty eff dis t) p = getNode t p := by
  intro p
  induction p with
  | nil => intro t n hne; exact absurd rfl hne
  | cons i p ih =>
    intro t n _ hget hown
    cases t with
    | mk b cs =>
      simp only [getNode, CgroupTree.children] at hget
      cases hcs : cs.get? i with
      | none => rw [hcs] at hget; exact absurd hget (by simp)
      | some c =>
        rw [hcs] at hget
        simp only [propagate, getNode, CgroupTree.children, propagateChildren_eq_map,
          List.get?_map, hcs, Option.map_some']
        cases hskip : ((c.bpf ty).prog).isSome with
        | true => simp
        | false =>
          rw [if_neg (by simp)]
          cases p with
          | nil =>
            simp only [getNode] at hget
            cases hget
            rw [hskip] at hown
            exact absurd hown (by simp)
          | cons j q =>
            rw [ih c n (by simp) hget hown]

/-- The walk rewrites no `prog` slot, so it reaches the same positions. -/
theorem reached_propagate (ty : AttachType) (eff : Option Prog) (dis : Bool) :
    ∀ (p : List Nat) (t : CgroupTree),
      reached ty (propagate ty eff dis t) p = reached ty t p := by
  intro p
  induction p with
  | nil => intro t; rfl
  | cons i p ih =>
    intro t
    cases t with
    | mk b cs =>
      simp only [reached, propagate, CgroupTree.children, propagateChildren_eq_map,
        List.get?_map]
      cases hcs : cs.get? i with
      | none => rfl
      | some c =>
        simp only [Option.map_some']
        by_cases hskip : ((c.bpf ty).prog).isSome = true
        · simp [hskip]
        · simp [hskip, bpf_propagate, setEffDis_same, ih c]

/-- Reachedness is closed under taking path prefixes. -/
theorem reached_append (ty : AttachType) :
    ∀ (p q : List Nat) (t : CgroupTree),
      reached ty t (p ++ q) = true → reached ty t p = true := by
  intro p
  induction p with
  | nil => intro q t _; rfl
  | cons i p ih =>
    intro q t hr
    cases t with
    | mk b cs =>
      simp only [List.cons_append, reached, CgroupTree.children] at hr ⊢
      cases hcs : cs.get? i with
      | none =>
        rw [hcs] at hr
        simp at hr
      | some c =>
        rw [hcs] at hr
        have hr2 : (((c.bpf ty).prog).isNone && reached ty c (p ++ q)) = true := hr
        show (((c.bpf ty).prog).isNone && reached ty c p) = true
        simp only [Bool.and_eq_true] at hr2 ⊢
        exact ⟨hr2.1, ih q c hr2.2⟩

/-- On a zero return, the update stored the new program at the root and
performed the descendant walk with the locals the `if (prog)` block left. -/
theorem update_tree_of_ret_zero (t : CgroupTree) (parent : Option CgroupBpf)
    (pr : Option Prog) (ty : AttachType) (nov : Bool) (cnt : Int)
    (h : (__cgroup_bpf_update t parent pr ty nov cnt).ret = 0) :
    (__cgroup_bpf_update t parent pr ty nov cnt).tree =
      propagate ty (updEffective parent pr ty) (!updOverridable parent pr ty nov)
        (setProg ty pr t) := by
  unfold __cgroup_bpf_update at h ⊢
  repeat' split at h
  all_goals simp_all [EPERM, ENOENT]
  all_goals repeat' split
  all_goals simp_all

/-- C3: when the updated cgroup already holds a local program for the hook
type and an attach request arrives whose override mode differs from the
existing attachment's mode — the stored `disallow_override[type]` bool is
the negation of the existing attachment's overridability, so a differing
requested mode means `disallow_override[type] == new_overridable` —
`__cgroup_bpf_update` returns `-EPERM` with the tree and the global enabled
counter exactly as passed in: the failed call mutates nothing. -/
theorem C3_mode_conflict_attach_eperm_no_mutation
    (t : CgroupTree) (parent : Option CgroupBpf) (pr : Option Prog)
    (ty : AttachType) (nov : Bool) (cnt : Int)
    (hpr : pr.isSome = true) (hown : ((t.bpf ty).prog).isSome = true)
    (hmode : (t.bpf ty).disallow_override = nov) :
    __cgroup_bpf_update t parent pr ty nov cnt =
      { ret := -EPERM, tree := t, cnt := cnt } := by
  unfold __cgroup_bpf_update
  split
  · rfl
  · split
    · rfl
    · split
      · rfl
      · next h3 =>
        exact absurd (by simp [hpr, hown, hmode]) h3

/-- C3 witness: a cgroup with an overridable program 3 attached
(`disallow_override = false`); attaching program 4 as non-overridable
(`new_overridable = false`, equal to the stored bool) fails with `-EPERM`
and leaves tree and counter untouched. -/
theorem C3_witness :
    __cgroup_bpf_update
        (CgroupTree.mk (fun _ =>
          { prog := some 3, effective := some 3, disallow_override := false,
            progs := [], flags := { allow_multi := false, allow_override := false } }) [])
        none (some 4) 0 false 7 =
      { ret := -EPERM,
        tree := CgroupTree.mk (fun _ =>
          { prog := some 3, effective := some 3, disallow_override := false,
            progs := [], flags := { allow_multi := false, allow_override := false } }) [],
        cnt := 7 } :=
  C3_mode_conflict_attach_eperm_no_mutation _ none (some 4) 0 false 7 rfl rfl rfl

/-- C4: a detach (`prog = NULL`) at a cgroup with no local program for the
hook type returns `-ENOENT`, and the whole tree state — every node's
fields for every hook type — and the global enabled counter are returned
exactly as passed in. -/
theorem C4_detach_nothing_attached_enoent_no_mutation
    (t : CgroupTree) (parent : Option CgroupBpf) (ty : AttachType) (nov : Bool) (cnt : Int)
    (hnone : (t.bpf ty).prog = none) :
    __cgroup_bpf_update t parent none ty nov cnt =
      { ret := -ENOENT, tree := t, cnt := cnt } := by
  simp [__cgroup_bpf_update, hnone]

/-- C4 witness: detaching at an empty cgroup returns `-ENOENT` and leaves
the tree and counter unchanged. -/
theorem C4_witness :
    __cgroup_bpf_update (CgroupTree.mk emptyBpf []) none none 0 true 5 =
      { ret := -ENOENT, tree := CgroupTree.mk emptyBpf [], cnt := 5 } :=
  C4_detach_nothing_attached_enoent_no_mutation (CgroupTree.mk emptyBpf []) none 0 true 5 rfl

/-- C7: the four behaviours of `hierarchy_allows_attach` on the
parent-to-root ancestor walk: an exhausted walk permits the attachment; an
ancestor with `BPF_F_ALLOW_MULTI` set permits it immediately; a non-multi
ancestor with exactly one own program decides by its `BPF_F_ALLOW_OVERRIDE`
bit (the override policy permitting precisely when overriding is not
disallowed); a non-multi ancestor with zero own programs is walked past. -/
theorem C7_hierarchy_allows_attach_walk :
    (∀ nf, hierarchy_allows_attach [] nf = true) ∧
    (∀ nf p rest, p.flags.allow_multi = true →
      hierarchy_allows_attach (p :: rest) nf = true) ∧
    (∀ nf p rest, p.flags.allow_multi = false → prog_list_length p.progs = 1 →
      hierarchy_allows_attach (p :: rest) nf = p.flags.allow_override) ∧
    (∀ nf p rest, p.flags.allow_multi = false → prog_list_length p.progs = 0 →
      hierarchy_allows_attach (p :: rest) nf = hierarchy_allows_attach rest nf) := by
  refine ⟨fun nf => rfl, ?_, ?_, ?_⟩
  · intro nf p rest hm
    simp [hierarchy_allows_attach, hm]
  · intro nf p rest hm hc
    simp [hierarchy_allows_attach, hm, hc]
  · intro nf p rest hm hc
    simp [hierarchy_allows_attach, hm, hc]

/-- C7 witness: a multi-enabled ancestor permits immediately; a non-multi
ancestor holding one program with `BPF_F_ALLOW_OVERRIDE` set answers with
that bit. -/
theorem C7_witness :
    hierarchy_allows_attach
        [{ prog := none, effective := none, disallow_override := false, progs := [],
           flags := { allow_multi := true, allow_override := false } }]
        { allow_multi := false, allow_override := false } = true ∧
    hierarchy_allows_attach
        [{ prog := none, effective := none, disallow_override := false, progs := [some 3],
           flags := { allow_multi := false, allow_override := true } }]
        { allow_multi := false, allow_override := false } = true :=
  ⟨C7_hierarchy_allows_attach_walk.2.1 _ _ [] rfl,
   C7_hierarchy_allows_attach_walk.2.2.1 _ _ [] rfl (by decide)⟩

/-- C9: the skb filter path short-circuits to 0 (accept) when the socket is
NULL, is not a full socket, or has a family other than `AF_INET`/`AF_INET6`
— for every program runner and every cgroup state, so no effective snapshot
is consulted and no program verdict can influence the result. -/
theorem C9_skb_invalid_sock_accepts
    (runProg : Prog → SkBuff → Sock → Int) (sk : Option Sock) (skb : SkBuff)
    (ty : AttachType)
    (h : sk = none ∨ ∃ s, sk = some s ∧
        (s.fullsock = false ∨ (s.family ≠ AF_INET ∧ s.family ≠ AF_INET6))) :
    __cgroup_bpf_run_filter_skb runProg sk skb ty = 0 := by
  rcases h with h | ⟨s, rfl, hs | ⟨h4, h6⟩⟩
  · rw [h]
    rfl
  · simp [__cgroup_bpf_run_filter_skb, hs]
  · simp [__cgroup_bpf_run_filter_skb, h4, h6]

/-- C9 witness: a full AF_UNIX (family 1) socket in a cgroup with a program
published is still accepted without running it (the runner rejects
everything, yet the verdict is 0). -/
theorem C9_witness :
    __cgroup_bpf_run_filter_skb (fun _ _ _ => 0)
        (some { fullsock := true, family := 1,
                cgrp := fun _ =>
                  { prog := some 3, effective := some 3, disallow_override := false,
                    progs := [], flags := { allow_multi := false, allow_override := false } } })
        0 0 = 0 :=
  C9_skb_invalid_sock_accepts (fun _ _ _ => 0) _ 0 0
    (Or.inr ⟨_, rfl, Or.inr ⟨by decide, by decide⟩⟩)

/-- C6: the run paths always produce a verdict: the result is 0 (accept) or
`-EPERM` (reject), never another error; an absent published effective
pointer yields accept; and on both the sk and the (valid-socket) skb path
the verdict coincides with the claim's chain semantics — run the snapshot's
programs in order, reject at the first non-accept program verdict, accept
when all accept — applied to the published snapshot viewed as a chain. -/
theorem C6_run_path_verdicts :
    (∀ (runProg : Prog → Sock → Int) (sk : Sock) (ty : AttachType),
        __cgroup_bpf_run_filter_sk runProg sk ty =
          chainVerdict (fun p => runProg p sk == 1) ((sk.cgrp ty).effective).toList) ∧
    (∀ (runProg : Prog → Sock → Int) (sk : Sock) (ty : AttachType),
        __cgroup_bpf_run_filter_sk runProg sk ty = 0 ∨
        __cgroup_bpf_run_filter_sk runProg sk ty = -EPERM) ∧
    (∀ (runProg : Prog → SkBuff → Sock → Int) (sk : Option Sock) (skb : SkBuff)
        (ty : AttachType),
        __cgroup_bpf_run_filter_skb runProg sk skb ty = 0 ∨
        __cgroup_bpf_run_filter_skb runProg sk skb ty = -EPERM) ∧
    (∀ (runProg : Prog → SkBuff → Sock → Int) (s : Sock) (skb : SkBuff)
        (ty : AttachType),
        s.fullsock = true → (s.family = AF_INET ∨ s.family = AF_INET6) →
        __cgroup_bpf_run_filter_skb runProg (some s) skb ty =
          chainVerdict (fun p => runProg p skb s == 1) ((s.cgrp ty).effective).toList) := by
  refine ⟨?_, ?_, ?_, ?_⟩
  · intro runProg sk ty
    unfold __cgroup_bpf_run_filter_sk
    cases (sk.cgrp ty).effective with
    | none => rfl
    | some p =>
      by_cases hv : runProg p sk = 1
      · simp [chainVerdict, hv]
      · simp [chainVerdict, hv]
  · intro runProg sk ty
    unfold __cgroup_bpf_run_filter_sk
    cases (sk.cgrp ty).effective with
    | none => exact Or.inl rfl
    | some p =>
      by_cases hv : runProg p sk = 1
      · exact Or.inl (by simp [hv])
      · exact Or.inr (by simp [hv])
  · intro runProg sk skb ty
    unfold __cgroup_bpf_run_filter_skb
    cases sk with
    | none => exact Or.inl rfl
    | some s =>
      repeat' split
      all_goals first
      | exact Or.inl rfl
      | exact Or.inr rfl
  · intro runProg s skb ty hfull hfam
    have h2 : (s.family != AF_INET && s.family != AF_INET6) = false := by
      rcases hfam with h | h <;> simp [h]
    simp only [__cgroup_bpf_run_filter_skb, hfull, h2, Bool.not_true, Bool.false_eq_true,
      if_false]
    cases (s.cgrp ty).effective with
    | none => rfl
    | some p =>
      by_cases hv : runProg p skb s = 1
      · simp [chainVerdict, hv]
      · simp [chainVerdict, hv]

/-- C6 witness: a full AF_INET socket whose cgroup publishes program 3 and
a runner accepting everything: the skb path returns the chain verdict of
the one-element snapshot, namely accept. -/
theorem C6_witness :
    __cgroup_bpf_run_filter_skb (fun _ _ _ => 1)
        (some { fullsock := true, family := 2,
                cgrp := fun _ =>
                  { prog := some 3, effective := some 3, disallow_override := false,
                    progs := [], flags := { allow_multi := false, allow_override := false } } })
        0 0 =
      chainVerdict (fun _ => true) [3] :=
  C6_run_path_verdicts.2.2.2 (fun _ _ _ => 1) _ 0 0 rfl (Or.inl rfl)

/-- C2: a successful update at a cgroup leaves every proper descendant that
has its own program pinned for the hook type — together with that
descendant's entire subtree, hence all its `effective[H]` and
`disallow_override[H]` values — exactly as it was: the pre-order walk
skips the whole subtree. -/
theorem C2_own_attachment_subtree_untouched
    (t : CgroupTree) (parent : Option CgroupBpf) (pr : Option Prog)
    (ty : AttachType) (nov : Bool) (cnt : Int) (p : List Nat) (d : CgroupTree)
    (hret : (__cgroup_bpf_update t parent pr ty nov cnt).ret = 0)
    (hp : p ≠ []) (hd : getNode t p = some d)
    (hown : ((d.bpf ty).prog).isSome = true) :
    getNode (__cgroup_bpf_update t parent pr ty nov cnt).tree p = some d := by
  rw [update_tree_of_ret_zero t parent pr ty nov cnt hret]
  cases p with
  | nil => exact absurd rfl hp
  | cons i q =>
    have hset : getNode (setProg ty pr t) (i :: q) = some d := by
      rw [getNode_setProg_cons]
      exact hd
    rw [getNode_propagate_of_ownprog ty (updEffective parent pr ty)
      (!updOverridable parent pr ty nov) (i :: q) (setProg ty pr t) d (by simp) hset hown]
    exact hset

/-- C2 witness: attaching program 1 at a root whose child has its own
program 9 pinned returns 0 and leaves the child subtree identical. -/
theorem C2_witness :
    (__cgroup_bpf_update
        (CgroupTree.mk emptyBpf [CgroupTree.mk (fun _ =>
          { prog := some 9, effective := some 9, disallow_override := false,
            progs := [], flags := { allow_multi := false, allow_override := false } }) []])
        none (some 1) 0 true 0).ret = 0 ∧
    getNode (__cgroup_bpf_update
        (CgroupTree.mk emptyBpf [CgroupTree.mk (fun _ =>
          { prog := some 9, effective := some 9, disallow_override := false,
            progs := [], flags := { allow_multi := false, allow_override := false } }) []])
        none (some 1) 0 true 0).tree [0] =
      some (CgroupTree.mk (fun _ =>
          { prog := some 9, effective := some 9, disallow_override := false,
            progs := [], flags := { allow_multi := false, allow_override := false } }) []) :=
  ⟨rfl,
   C2_own_attachment_subtree_untouched _ none (some 1) 0 true 0 [0] _ rfl
     (by simp) rfl rfl⟩

/-- C5: after a successful update, every walked (non-skipped) non-root
node — which necessarily has no own program for the hook type — carries
the same published effective pointer as its parent; a root detach leaves
the root with the parent cgroup's current effective pointer; and a freshly
created cgroup inherits, for every hook type, its parent's current
effective pointer and `disallow_override` value via `cgroup_bpf_inherit`. -/
theorem C5_inheritance_after_propagation :
    (∀ (t : CgroupTree) (parent : Option CgroupBpf) (pr : Option Prog)
        (ty : AttachType) (nov : Bool) (cnt : Int) (p : List Nat) (i : Nat),
      (__cgroup_bpf_update t parent pr ty nov cnt).ret = 0 →
      reached ty (__cgroup_bpf_update t parent pr ty nov cnt).tree (p ++ [i]) = true →
      progAt ty (__cgroup_bpf_update t parent pr ty nov cnt).tree (p ++ [i]) = some none →
      effAt ty (__cgroup_bpf_update t parent pr ty nov cnt).tree (p ++ [i]) =
        effAt ty (__cgroup_bpf_update t parent pr ty nov cnt).tree p) ∧
    (∀ (t : CgroupTree) (parent : Option CgroupBpf) (ty : AttachType)
        (nov : Bool) (cnt : Int),
      (__cgroup_bpf_update t parent none ty nov cnt).ret = 0 →
      (((__cgroup_bpf_update t parent none ty nov cnt).tree.bpf) ty).effective =
        parentEffective parent ty) ∧
    (∀ (pb cb : CgroupBpf) (ty : AttachType),
      ((cgroup_bpf_inherit pb cb) ty).effective = (pb ty).effective ∧
      ((cgroup_bpf_inherit pb cb) ty).disallow_override = (pb ty).disallow_override) := by
  refine ⟨?_, ?_, ?_⟩
  · intro t parent pr ty nov cnt p i hret hreach _
    rw [update_tree_of_ret_zero t parent pr ty nov cnt hret] at hreach ⊢
    have hr1 : reached ty (setProg ty pr t) (p ++ [i]) = true := by
      rw [reached_propagate] at hreach
      exact hreach
    have hr0 : reached ty (setProg ty pr t) p = true :=
      reached_append ty p [i] (setProg ty pr t) hr1
    obtain ⟨n1, hn1, hn1p⟩ := getNode_propagate_of_reached ty
      (updEffective parent pr ty) (!updOverridable parent pr ty nov) (p ++ [i])
      (setProg ty pr t) hr1
    obtain ⟨n0, hn0, hn0p⟩ := getNode_propagate_of_reached ty
      (updEffective parent pr ty) (!updOverridable parent pr ty nov) p
      (setProg ty pr t) hr0
    simp [effAt, hn1p, hn0p, bpf_propagate, setEffDis_same]
  · intro t parent ty nov cnt hret
    rw [update_tree_of_ret_zero t parent none ty nov cnt hret]
    simp [bpf_propagate, setEffDis_same, updEffective]
  · intro pb cb ty
    exact ⟨rfl, rfl⟩

/-- C5 witness: attaching program 1 at a two-node tree's root reaches the
child (which has no own program) and leaves it with the same published
effective pointer as the root. -/
theorem C5_witness :
    effAt 0 (__cgroup_bpf_update (CgroupTree.mk emptyBpf [CgroupTree.mk emptyBpf []])
        none (some 1) 0 true 0).tree [0] =
      effAt 0 (__cgroup_bpf_update (CgroupTree.mk emptyBpf [CgroupTree.mk emptyBpf []])
        none (some 1) 0 true 0).tree [] :=
  C5_inheritance_after_propagation.1 (CgroupTree.mk emptyBpf [CgroupTree.mk emptyBpf []])
    none (some 1) 0 true 0 [] 0 rfl (by decide) (by decide)

/-- C10: a successful update writes one and the same
`disallow_override[H]` value to the updated cgroup and every walked,
non-skipped descendant: on attach the negation of the requested
overridability, on detach the parent's stored `disallow_override` (false —
overridable — when the updated cgroup is the root). -/
theorem C10_disallow_override_rewritten
    (t : CgroupTree) (parent : Option CgroupBpf) (pr : Option Prog)
    (ty : AttachType) (nov : Bool) (cnt : Int) (p : List Nat)
    (hret : (__cgroup_bpf_update t parent pr ty nov cnt).ret = 0)
    (hreach : reached ty (__cgroup_bpf_update t parent pr ty nov cnt).tree p = true) :
    disAt ty (__cgroup_bpf_update t parent pr ty nov cnt).tree p =
      some (expectedDisallow parent pr nov ty) := by
  rw [update_tree_of_ret_zero t parent pr ty nov cnt hret] at hreach ⊢
  have hr1 : reached ty (setProg ty pr t) p = true := by
    rw [reached_propagate] at hreach
    exact hreach
  obtain ⟨n1, hn1, hn1p⟩ := getNode_propagate_of_reached ty
    (updEffective parent pr ty) (!updOverridable parent pr ty nov) p
    (setProg ty pr t) hr1
  have hval : (!updOverridable parent pr ty nov) = expectedDisallow parent pr nov ty := by
    cases hp : pr.isSome <;> cases parent <;>
      simp [updOverridable, parentOverridable, expectedDisallow, hp, Bool.not_not]
  rw [← hval]
  simp [disAt, hn1p, bpf_propagate, setEffDis_same]

/-- C10 witness: detaching the root's program with a parent whose
`disallow_override` is true rewrites the root's `disallow_override` to the
parent's value, true. -/
theorem C10_witness :
    disAt 0 (__cgroup_bpf_update
        (CgroupTree.mk (fun _ =>
          { prog := some 5, effective := some 5, disallow_override := true,
            progs := [], flags := { allow_multi := false, allow_override := false } }) [])
        (some (fun _ =>
          { prog := some 4, effective := some 4, disallow_override := true,
            progs := [], flags := { allow_multi := false, allow_override := false } }))
        none 0 true 0).tree [] = some true :=
  C10_disallow_override_rewritten
    (CgroupTree.mk (fun _ =>
      { prog := some 5, effective := some 5, disallow_override := true,
        progs := [], flags := { allow_multi := false, allow_override := false } }) [])
    (some (fun _ =>
      { prog := some 4, effective := some 4, disallow_override := true,
        progs := [], flags := { allow_multi := false, allow_override := false } }))
    none 0 true 0 [] rfl rfl

theorem progsNonNull_length (l : List (Option Prog)) :
    (progsNonNull l).length = prog_list_length l := by
  induction l with
  | nil => rfl
  | cons h t ih => cases h <;> simp [progsNonNull, prog_list_length, ih]

/-- Once at least one program has been emitted, the fill loop takes exactly
the multi-enabled ancestors' programs, in walk order. -/
theorem compute_effective_fill_ne_zero :
    ∀ (anc : List TypeState) (cnt : Nat), cnt ≠ 0 →
      compute_effective_fill anc cnt =
        ((anc.filter fun a => a.flags.allow_multi).map fun a => progsNonNull a.progs).join := by
  intro anc
  induction anc with
  | nil => intro cnt h; rfl
  | cons a rest ih =>
    intro cnt h
    by_cases hm : a.flags.allow_multi = true
    · simp [compute_effective_fill, hm, h, List.filter_cons,
        ih (cnt + prog_list_length a.progs) (by omega)]
    · simp [compute_effective_fill, hm, h, List.filter_cons, ih cnt h]

/-- C1 (amended): the attach entry point `__cgroup_bpf_update` has no multi
mode and publishes a single effective program pointer, so after root R
attaches P1 and child C attaches P2 (both overridable, the mode pair on
which the second attach succeeds), the effective published at C is the
one-element chain [P2]: the child's program supersedes the root's instead
of stacking on it.  Separately, the unreferenced chain computation
`compute_effective_progs`, for a node with at least one own program, lists
the node's own programs first and then the programs of exactly those
ancestors with `BPF_F_ALLOW_MULTI` set, nearest-first; a non-multi
ancestor's programs are skipped, not included-then-stopped-at. -/
theorem C1_attach_publishes_single_program :
    (∀ (ty : AttachType) (p1 p2 : Prog) (cnt0 : Int),
      (scenarioRoot ty p1 cnt0).ret = 0 ∧
      getNode (scenarioRoot ty p1 cnt0).tree [0] =
        some (CgroupTree.mk (setEffDis ty (some p1) false emptyBpf) []) ∧
      (scenarioChild ty p1 p2 cnt0).ret = 0 ∧
      ((((scenarioChild ty p1 p2 cnt0).tree.bpf) ty).effective).toList = [p2]) ∧
    (∀ (n : TypeState) (anc : List TypeState), prog_list_length n.progs ≠ 0 →
      compute_effective_progs (n :: anc) =
        progsNonNull n.progs ++
          ((anc.filter fun a => a.flags.allow_multi).map fun a => progsNonNull a.progs).join) := by
  constructor
  · intro ty p1 p2 cnt0
    refine ⟨rfl, rfl, ?_, ?_⟩
    · simp [scenarioChild, scenarioRoot, __cgroup_bpf_update, parentEffective,
        parentOverridable, updEffective, updOverridable, propagate, propagateChildren,
        setProg, setEffDis, Function.update_same, emptyBpf, CgroupTree.bpf,
        CgroupTree.children]
    · simp [scenarioChild, scenarioRoot, __cgroup_bpf_update, parentEffective,
        parentOverridable, updEffective, updOverridable, propagate, propagateChildren,
        setProg, setEffDis, Function.update_same, emptyBpf, CgroupTree.bpf,
        CgroupTree.children]
  · intro n anc h
    unfold compute_effective_progs
    simp only [compute_effective_fill, Nat.zero_add]
    rw [if_pos (by simp)]
    rw [compute_effective_fill_ne_zero anc (prog_list_length n.progs) h]

/-- C1 counterexample to the claim as stated: running the claimed scenario
through the attach entry point (root attaches program 1, its child then
attaches program 2; both overridable, the only mode pair the entry point
accepts here) publishes at the child the one-element chain [2], not
[2, 1]; and `compute_effective_progs` on a node holding program 5 under a
non-multi ancestor holding program 7 yields [5], not the claimed
include-the-first-non-multi-ancestor result [5, 7]. -/
theorem C1_counterexample :
    ((((scenarioChild 0 1 2 0).tree.bpf) 0).effective).toList = [2] ∧
    ([2] : List Prog) ≠ [2, 1] ∧
    compute_effective_progs
        [{ prog := none, effective := none, disallow_override := false, progs := [some 5],
           flags := { allow_multi := false, allow_override := false } },
         { prog := none, effective := none, disallow_override := false, progs := [some 7],
           flags := { allow_multi := false, allow_override := false } }] = [5] ∧
    ([5] : List Prog) ≠ [5, 7] := by
  refine ⟨by decide, by decide, by decide, by decide⟩

/-- C1 witness: for a node holding program 5 above a multi-enabled ancestor
holding program 7, the computed chain is [5, 7] — own programs first, then
the multi ancestor's. -/
theorem C1_witness :
    compute_effective_progs
        [{ prog := none, effective := none, disallow_override := false, progs := [some 5],
           flags := { allow_multi := false, allow_override := false } },
         { prog := none, effective := none, disallow_override := false, progs := [some 7],
           flags := { allow_multi := true, allow_override := false } }] = [5, 7] :=
  C1_attach_publishes_single_program.2
    { prog := none, effective := none, disallow_override := false, progs := [some 5],
      flags := { allow_multi := false, allow_override := false } }
    [{ prog := none, effective := none, disallow_override := false, progs := [some 7],
       flags := { allow_multi := true, allow_override := false } }]
    (by decide)
